import Mathlib

/-!
Verification of the repository-scanner pipeline (`main.py`).

The Python sources are embedded shallowly: the directory walk of
`DirectoryStructureScanner.generate_tree` becomes a recursive function on an
inductive tree of filesystem entries, the pure markdown builders of
`MarkdownGenerator` become Lean functions on the same data, and the stateful
orchestration of `MarkdownGenerator.generate_markdowns` / `main` becomes
explicit state passing on an abstract filesystem state, with an environment
record resolving the outcome of each effectful step (clone, stat, scan, write).
-/

/-- A filesystem entry as `Path.iterdir` presents it: a directory together
with the entries it contains, or a plain file.  The `String` is the entry's
base name (`path.name`). -/
inductive FSEntry : Type where
  | dir (name : String) (children : List FSEntry)
  | file (name : String)
deriving Repr

namespace FSEntry

/-- The `path.name` of an entry. -/
def name : FSEntry → String
  | .dir n _ => n
  | .file n => n

/-- Whether `path.is_dir()` holds. -/
def isDir : FSEntry → Bool
  | .dir _ _ => true
  | .file _ => false

/-- Whether `path.is_file()` holds. -/
def isFile : FSEntry → Bool
  | .dir _ _ => false
  | .file _ => true

/-- The entries `path.iterdir()` yields for a directory (a file has none). -/
def children : FSEntry → List FSEntry
  | .dir _ cs => cs
  | .file _ => []

theorem sizeOf_string_pos (s : String) : 0 < sizeOf s := by
  simp [sizeOf, String._sizeOf_1]

theorem sizeOf_children_lt : ∀ e : FSEntry, sizeOf e.children < sizeOf e := by
  intro e
  cases e with
  | dir n cs => simp [children]
  | file n => have := sizeOf_string_pos n; simp [children]; omega

end FSEntry

/-- The connector literal chosen by `is_last` (main.py lines 19 and 36). -/
def connector (is_last : Bool) : String :=
  if is_last then "└── " else "├── "

/-- Python's `s.startswith(pre)` on the code points of the strings. -/
def pyStartsWith (pre s : String) : Bool :=
  pre.toList.isPrefixOf s.toList

/-- Python's `s.split('/')`, on code points: split at every slash, keeping
empty pieces (so the result is never the empty list). -/
def splitOnSlash : List Char → List (List Char)
  | [] => [[]]
  | c :: rest =>
    if c = '/' then [] :: splitOnSlash rest
    else
      match splitOnSlash rest with
      | [] => [[c]]
      | g :: gs => (c :: g) :: gs

/-- The ordering Python's `sorted` applies to the entries of one directory:
sibling paths share every parent component, so comparing the `Path` values
is comparing their base names code-point-lexicographically.  It is stated on
membership-carrying entries so the recursion below can measure children. -/
def nameLe (cs : List FSEntry) (a b : {x // x ∈ cs}) : Prop :=
  a.val.name ≤ b.val.name

instance (cs : List FSEntry) : DecidableRel (nameLe cs) := fun a b =>
  inferInstanceAs (Decidable (a.val.name ≤ b.val.name))

/-- One level's subdirectory list as the source computes it:
`sorted([d for d in entries if d.is_dir()])` (line 22) and then the hidden /
`__pycache__` filter (line 25). -/
def levelDirs (cs : List FSEntry) : List {x // x ∈ cs} :=
  (List.insertionSort (nameLe cs) (cs.attach.filter fun x => x.val.isDir)).filter
    fun d => !(pyStartsWith "." d.val.name) && d.val.name != "__pycache__"

/-- One level's file list as the source computes it:
`sorted([f for f in entries if f.is_file()])` (line 23) and then the hidden
filter (line 26). -/
def levelFiles (cs : List FSEntry) : List {x // x ∈ cs} :=
  (List.insertionSort (nameLe cs) (cs.attach.filter fun x => x.val.isFile)).filter
    fun f => !(pyStartsWith "." f.val.name)

/-- Embedding of `DirectoryStructureScanner.generate_tree` (main.py lines
15-38).  `name`/`cs` are the current entry's base name and `iterdir` listing
(the source only ever reaches this code on directories: the root, then each
subdirectory it recurses into), `pathStr` is `str(path)` (used only through
the `path.name or str(path)` fallback of line 19), `pfx` is the `prefix`
parameter and `is_last` the `is_last` parameter; the source's top-level call
uses the defaults `pfx = ""`, `is_last = true`.  Every element of
`levelDirs cs` is a directory entry, so its `name`/`children` projections are
exactly the `dir_path` the source recurses into. -/
def generate_tree (name : String) (cs : List FSEntry) (pathStr pfx : String)
    (is_last : Bool) : String :=
  let output := pfx ++ connector is_last ++ (if name = "" then pathStr else name) ++ "\n"
  let dirs := levelDirs cs
  let files := levelFiles cs
  let next_pfx := pfx ++ (if is_last then "    " else "│   ")
  let dirLines := dirs.enum.map fun p =>
    generate_tree p.2.val.name p.2.val.children (pathStr ++ "/" ++ p.2.val.name)
      next_pfx ((p.1 == dirs.length - 1) && files.isEmpty)
  let fileLines := files.enum.map fun p =>
    next_pfx ++ connector (p.1 == files.length - 1) ++ p.2.val.name ++ "\n"
  output ++ String.join dirLines ++ String.join fileLines
termination_by sizeOf cs
decreasing_by
  have h1 := List.sizeOf_lt_of_mem p.2.property
  have h2 := FSEntry.sizeOf_children_lt p.2.val
  omega

/-- Spec reading of one level's subdirectory list (§4.3): partition the
entries into subdirectories, drop the hidden ones and any directory named
`__pycache__`, then sort lexicographically.  (The source instead sorts
before dropping; claim C4 equates the two.) -/
def levelDirsSpec (cs : List FSEntry) : List {x // x ∈ cs} :=
  List.insertionSort (nameLe cs)
    ((cs.attach.filter fun x => x.val.isDir).filter
      fun d => !(pyStartsWith "." d.val.name) && d.val.name != "__pycache__")

/-- Spec reading of one level's file list (§4.3): partition out the files,
drop the hidden ones, then sort lexicographically. -/
def levelFilesSpec (cs : List FSEntry) : List {x // x ∈ cs} :=
  List.insertionSort (nameLe cs)
    ((cs.attach.filter fun x => x.val.isFile).filter
      fun f => !(pyStartsWith "." f.val.name))

/-- The Tree Renderer as §4.3 words its level processing (partition, drop,
sort, recurse into every subdirectory before the level's files, and mark
the level's last entry with the terminal connector).  The first line is the
connector-prefixed one the source actually emits — the root-line wording of
the spec is claim C2's business, not C4's. -/
def generate_treeSpec (name : String) (cs : List FSEntry) (pathStr pfx : String)
    (is_last : Bool) : String :=
  let output := pfx ++ connector is_last ++ (if name = "" then pathStr else name) ++ "\n"
  let dirs := levelDirsSpec cs
  let files := levelFilesSpec cs
  let next_pfx := pfx ++ (if is_last then "    " else "│   ")
  let dirLines := dirs.enum.map fun p =>
    generate_treeSpec p.2.val.name p.2.val.children (pathStr ++ "/" ++ p.2.val.name)
      next_pfx ((p.1 == dirs.length - 1) && files.isEmpty)
  let fileLines := files.enum.map fun p =>
    next_pfx ++ connector (p.1 == files.length - 1) ++ p.2.val.name ++ "\n"
  output ++ String.join dirLines ++ String.join fileLines
termination_by sizeOf cs
decreasing_by
  have h1 := List.sizeOf_lt_of_mem p.2.property
  have h2 := FSEntry.sizeOf_children_lt p.2.val
  omega

/-- Modelled from the spec: `FileInfo` of `core/file_scanner.py` (that file is not among the
sources at hand; the shape is fixed by its uses in main.py lines 91-97 and
by §3 of the design: a relative path plus the text content, or `none` when
the file could not be read). -/
structure FileInfo where
  path : String
  content : Option String
deriving DecidableEq, Repr

/-- Embedding of `MarkdownGenerator._create_content_markdown` (main.py
lines 89-99): a string accumulator looped over the entries. -/
def create_content_markdown (files : List FileInfo) : String :=
  files.foldl
    (fun content file =>
      content ++ ("## " ++ file.path ++ "\n") ++ "------------\n" ++
        (match file.content with
          | some c => c
          | none => "# Failed to read content") ++ "\n\n")
    ""

/-- Modelled from the spec (§4.5 `buildContentDocument`): the subsection one
FileEntry contributes — a heading with the relative path, the fixed
separator line, the content or the absence marker, and a blank-line
spacer. -/
def entryBlockSpec (file : FileInfo) : String :=
  "## " ++ file.path ++ "\n" ++ "------------\n" ++
    (match file.content with
      | some c => c
      | none => "# Failed to read content") ++ "\n\n"

/-- Embedding of `MarkdownGenerator._create_structure_markdown` (lines
80-87); `now` stands for the `datetime.now().strftime(...)` string. -/
def create_structure_markdown (name now tree_structure : String) : String :=
  ("# " ++ name ++ " - ディレクトリ構造\n\n") ++
    ("生成日時: " ++ now ++ "\n\n") ++
    "```\n" ++ tree_structure ++ "```\n"

/-- Embedding of `str.replace('.git', '')` (line 103) on the character
list of a string: Python deletes the non-overlapping occurrences of the
pattern left to right, and so does this scan. -/
def removeDotGit : List Char → List Char
  | '.' :: 'g' :: 'i' :: 't' :: rest => removeDotGit rest
  | c :: rest => c :: removeDotGit rest
  | [] => []

/-- Claim C9's reading of line 103: walk the segment, and wherever the
substring `.git` starts, delete those four characters and continue behind
them — every occurrence goes, not only a trailing one. -/
def removeAllGitSpec (l : List Char) : List Char :=
  match l with
  | [] => []
  | c :: rest =>
    if ['.', 'g', 'i', 't'].isPrefixOf (c :: rest) then removeAllGitSpec (rest.drop 3)
    else c :: removeAllGitSpec rest
termination_by l.length
decreasing_by
  all_goals simp
  omega

/-- Removing only a trailing `.git` suffix — what line 103 would do if it
used a suffix strip instead of `replace`; claim C9 contrasts the two. -/
def stripTrailingGit (s : String) : String :=
  if ['.', 'g', 'i', 't'].isSuffixOf s.toList
  then String.mk (s.toList.take (s.toList.length - 4))
  else s

/-- Embedding of `pathlib`'s `Path(p).name`: the last path component, with
empty and `.` components dropped. -/
def pathName (p : String) : String :=
  String.mk (((splitOnSlash p.toList).filter
    fun s => s != [] && s != ['.']).getLastD [])

/-- Python's substring test `pat in s`, on character lists: some suffix of
`s` starts with `pat`. -/
def containsSub (pat : List Char) : List Char → Bool
  | [] => pat.isEmpty
  | c :: rest => pat.isPrefixOf (c :: rest) || containsSub pat rest

/-- Embedding of the `is_github` classification (main.py line 45):
`target_path.startswith(('http://', 'https://')) and 'github.com' in
target_path`. -/
def is_github (target_path : String) : Bool :=
  (pyStartsWith "http://" target_path || pyStartsWith "https://" target_path) &&
    containsSub "github.com".toList target_path.toList

/-- Embedding of `MarkdownGenerator._get_name` (lines 101-105). -/
def get_name (target_path : String) : String :=
  if is_github target_path then
    String.mk (removeDotGit ((splitOnSlash target_path.toList).getLastD []))
  else
    pathName target_path

/-- The filesystem facts one pipeline run can observe or change. -/
structure FS where
  /-- this run's temporary clone directory currently exists on disk -/
  tempExists : Bool
  /-- whether `tempfile.mkdtemp()` created a temporary directory at some point
  during this run -/
  tempCreated : Bool
  /-- the pipeline deleted the caller-owned local directory (or something
  under it) -/
  localDeleted : Bool
deriving DecidableEq, Repr

/-- The state a run starts from: no temporary directory yet, nothing
deleted. -/
def FS.clean : FS := { tempExists := false, tempCreated := false, localDeleted := false }

/-- The exceptions `generate_markdowns` can raise.  `acquisition` is the
`ValueError` of line 59; `mkdtempFail` and `cloneFail` stand for `OSError`
out of `tempfile.mkdtemp` (line 53) and `git.exc.GitError` out of
`clone_from` (line 54); `notADir` is the `NotADirectoryError` that
`path.iterdir()` raises on a non-directory (line 21); `fileNotFound` the
`FileNotFoundError` of `shutil.rmtree` on a missing path; `scanFail` any
other failure inside the scanning / assembly steps (lines 62-71). -/
inductive PipeError where
  | acquisition (msg : String)
  | mkdtempFail
  | cloneFail
  | notADir
  | fileNotFound
  | scanFail
deriving DecidableEq, Repr

/-- The `str(e)` text `main` prints for an error. -/
def PipeError.msg : PipeError → String
  | .acquisition m => m
  | .mkdtempFail => "mkdtemp failed"
  | .cloneFail => "clone failed"
  | .notADir => "Not a directory"
  | .fileNotFound => "No such file or directory"
  | .scanFail => "scan failed"

/-- Embedding of `shutil.rmtree(self.temp_dir)` (line 78): deletes the temporary
directory; on a path that does not exist it raises `FileNotFoundError`. -/
def rmtreeTemp (fs : FS) : Except PipeError FS :=
  if fs.tempExists then .ok { fs with tempExists := false }
  else .error .fileNotFound

/-- The `finally` block of lines 75-78: `if self.is_github and
self.temp_dir and Path(self.temp_dir).exists(): shutil.rmtree(...)`.
`temp_dir_set` says whether `self.temp_dir` was assigned (line 53
executed). -/
def release (isGit temp_dir_set : Bool) (fs : FS) : Except PipeError FS :=
  if isGit && temp_dir_set && fs.tempExists then rmtreeTemp fs else .ok fs

/-- The state `release` leaves behind (it never raises; see
`release_eq_ok`). -/
def releaseFS (isGit temp_dir_set : Bool) (fs : FS) : FS :=
  if isGit && temp_dir_set && fs.tempExists then { fs with tempExists := false } else fs

theorem release_eq_ok (isGit temp_dir_set : Bool) (fs : FS) :
    release isGit temp_dir_set fs = .ok (releaseFS isGit temp_dir_set fs) := by
  unfold release releaseFS rmtreeTemp
  by_cases h : (isGit && temp_dir_set && fs.tempExists) = true
  · simp only [h, if_true]
    have h2 : fs.tempExists = true := (Bool.and_eq_true _ _ |>.mp h).2
    simp [h2]
  · simp [h]

/-- The value a successful run returns (line 73):
`(content_md, structure_md, files)`. -/
structure MDOut where
  content_md : String
  structure_md : String
  files : List FileInfo
deriving DecidableEq, Repr

instance : DecidableEq (Except PipeError MDOut) := fun a b =>
  match a, b with
  | .ok x, .ok y =>
    if h : x = y then isTrue (by rw [h]) else isFalse (fun hh => h (Except.ok.inj hh))
  | .error x, .error y =>
    if h : x = y then isTrue (by rw [h]) else isFalse (fun hh => h (Except.error.inj hh))
  | .ok _, .error _ => isFalse (fun hh => Except.noConfusion hh)
  | .error _, .ok _ => isFalse (fun hh => Except.noConfusion hh)

/-- Outcomes of the effectful steps of one run, resolving each fallible
operation of main.py lines 52-71. -/
structure RunEnv where
  /-- whether `tempfile.mkdtemp()` succeeds (line 53) -/
  mkdtempOk : Bool
  /-- whether `git.Repo.clone_from(...)` succeeds (line 54) -/
  cloneOk : Bool
  /-- the local path exists — `work_dir.exists()` (line 58) -/
  localExists : Bool
  /-- the local path is a directory (`path.iterdir()` raises on it
  otherwise, line 21) -/
  localIsDir : Bool
  /-- the tree scan, file scan and markdown assembly raise nothing else
  (lines 62-71) -/
  scanOk : Bool
  /-- result of `FileScanner.scan_files()` on success (line 67) -/
  files : List FileInfo
  /-- result of `dir_scanner.generate_tree()` on success (line 63) -/
  tree : String
  /-- the `datetime.now().strftime(...)` string of line 83 -/
  now : String
deriving Repr

/-- The scoped block of lines 61-73 once a working directory is at hand:
tree scan (raises `NotADirectoryError` when the working directory is a
file, possible only for local targets), file scan, then assembly of the
two documents. -/
def scanPhase (target_path : String) (env : RunEnv) (work_is_dir : Bool) :
    Except PipeError MDOut :=
  if !work_is_dir then .error .notADir
  else if env.scanOk then
    .ok { content_md := create_content_markdown env.files
        , structure_md := create_structure_markdown (get_name target_path) env.now env.tree
        , files := env.files }
  else .error .scanFail

/-- Embedding of `try ... finally ...`: the `finally` block runs whatever `res` the try
block produced; an exception the `finally` block itself raised would
replace `res` (the guard in `release` keeps that from happening, see
`release_eq_ok`). -/
def runFinally (res : Except PipeError MDOut) (isGit temp_dir_set : Bool) (fs : FS) :
    Except PipeError MDOut × FS :=
  match release isGit temp_dir_set fs with
  | .ok fs2 => (res, fs2)
  | .error e => (.error e, fs)

/-- Embedding of `MarkdownGenerator.generate_markdowns` (lines 49-78) with
the filesystem state passed explicitly.  The github branch creates the
temporary directory (line 53) and clones into it; the local branch checks
existence (line 58) and raises `ValueError` on failure (line 59); every
path then runs the `finally` block, with `temp_dir_set` true exactly when
line 53 executed. -/
def generate_markdowns (target_path : String) (env : RunEnv) (fs : FS) :
    Except PipeError MDOut × FS :=
  if is_github target_path then
    if env.mkdtempOk then
      let fs1 : FS := { fs with tempExists := true, tempCreated := true }
      if env.cloneOk then
        runFinally (scanPhase target_path env true) true true fs1
      else
        runFinally (.error .cloneFail) true true fs1
    else
      runFinally (.error .mkdtempFail) true false fs
  else
    if !env.localExists then
      runFinally (.error (.acquisition ("Directory not found: " ++ target_path)))
        false false fs
    else
      runFinally (scanPhase target_path env env.localIsDir) false false fs

/-- Whether an `Except` result is a success. -/
def exceptOk : Except PipeError MDOut → Bool
  | .ok _ => true
  | .error _ => false

/-- What `main` (lines 107-143) leaves observable: its return value —
`exit(main())` makes it the process exit code — the lines printed to
stdout, and the filesystem state. -/
structure MainOut where
  code : Nat
  printed : List String
  fs : FS
deriving Repr

/-- Embedding of `main` (lines 107-143).  `argv` is `sys.argv` (program
name included), `writesOk` resolves the two `open(...).write` steps of
lines 126-130, `ts` the `datetime.now().strftime(...)` of line 120.  The
`except Exception` handler turns any raised error into exit code 1 with
the message printed. -/
def mainFn (argv : List String) (env : RunEnv) (writesOk : Bool) (ts : String)
    (fs : FS) : MainOut :=
  if argv.length != 2 then
    { code := 1
    , printed := ["Usage: python main.py <github_url or directory_path>"]
    , fs := fs }
  else
    let target_path := argv.getD 1 ""
    let p0 := "Processing: " ++ target_path
    match generate_markdowns target_path env fs with
    | (.ok _, fs1) =>
      let nm := get_name target_path
      let content_file := nm ++ "_content_" ++ ts ++ ".md"
      let structure_file := nm ++ "_structure_" ++ ts ++ ".md"
      if writesOk then
        { code := 0
        , printed := [p0, "生成完了:", "- ファイル内容: " ++ content_file,
            "- ディレクトリ構造: " ++ structure_file]
        , fs := fs1 }
      else
        { code := 1
        , printed := [p0, "エラーが発生しました: " ++ "write failed"]
        , fs := fs1 }
    | (.error e, fs1) =>
      { code := 1
      , printed := [p0, "エラーが発生しました: " ++ e.msg]
      , fs := fs1 }

theorem orderedInsert_of_forall_rel {α : Type} (r : α → α → Prop) [DecidableRel r]
    {a : α} {l : List α} (h : ∀ c ∈ l, r a c) :
    l.orderedInsert r a = a :: l := by
  cases l with
  | nil => rfl
  | cons b bs => exact List.orderedInsert_of_le r bs (h b (List.mem_cons_self b bs))

/-- Filtering commutes with `orderedInsert` into a sorted list. -/
theorem filter_orderedInsert {α : Type} (r : α → α → Prop) [DecidableRel r]
    (htrans : ∀ {a b c : α}, r a b → r b c → r a c) (p : α → Bool) (a : α) :
    ∀ l : List α, l.Pairwise r →
      (l.orderedInsert r a).filter p =
        if p a then (l.filter p).orderedInsert r a else l.filter p := by
  intro l hl
  induction l with
  | nil =>
    by_cases hpa : p a <;> simp [hpa]
  | cons b bs ih =>
    rcases List.pairwise_cons.mp hl with ⟨hb, hbs⟩
    by_cases hab : r a b
    · rw [List.orderedInsert, if_pos hab]
      by_cases hpa : p a
      · rw [if_pos hpa, List.filter_cons_of_pos hpa,
          orderedInsert_of_forall_rel r]
        intro c hc
        rcases List.mem_cons.mp (List.mem_filter.mp hc).1 with hcb | hcbs
        · exact hcb ▸ hab
        · exact htrans hab (hb c hcbs)
      · rw [if_neg hpa, List.filter_cons_of_neg hpa]
    · rw [List.orderedInsert, if_neg hab]
      by_cases hpb : p b
      · rw [List.filter_cons_of_pos hpb, List.filter_cons_of_pos hpb, ih hbs]
        by_cases hpa : p a
        · rw [if_pos hpa, if_pos hpa, List.orderedInsert, if_neg hab]
        · rw [if_neg hpa, if_neg hpa]
      · rw [List.filter_cons_of_neg hpb, List.filter_cons_of_neg hpb, ih hbs]

/-- Filtering commutes with the stable sort: sorting then dropping equals
dropping then sorting. -/
theorem filter_insertionSort {α : Type} (r : α → α → Prop) [DecidableRel r]
    [IsTotal α r] [IsTrans α r] (p : α → Bool) :
    ∀ l : List α, (l.insertionSort r).filter p = (l.filter p).insertionSort r := by
  intro l
  induction l with
  | nil => rfl
  | cons a l ih =>
    rw [List.insertionSort,
      filter_orderedInsert r (fun h1 h2 => IsTrans.trans _ _ _ h1 h2) p a
        (List.insertionSort r l) (List.sorted_insertionSort r l)]
    by_cases hpa : p a
    · rw [if_pos hpa, ih, List.filter_cons_of_pos hpa, List.insertionSort]
    · rw [if_neg hpa, ih, List.filter_cons_of_neg hpa]

instance (cs : List FSEntry) : IsTotal {x // x ∈ cs} (nameLe cs) :=
  ⟨fun a b => le_total a.val.name b.val.name⟩

instance (cs : List FSEntry) : IsTrans {x // x ∈ cs} (nameLe cs) :=
  ⟨fun _ _ _ h1 h2 => le_trans h1 h2⟩

theorem levelDirs_eq_spec (cs : List FSEntry) : levelDirs cs = levelDirsSpec cs := by
  unfold levelDirs levelDirsSpec
  rw [filter_insertionSort]

theorem levelFiles_eq_spec (cs : List FSEntry) : levelFiles cs = levelFilesSpec cs := by
  unfold levelFiles levelFilesSpec
  rw [filter_insertionSort]

theorem sizeOf_list_pos (cs : List FSEntry) : 0 < sizeOf cs := by
  cases cs <;> simp

theorem generate_tree_eq_spec (name : String) (cs : List FSEntry)
    (pathStr pfx : String) (is_last : Bool) :
    generate_tree name cs pathStr pfx is_last =
      generate_treeSpec name cs pathStr pfx is_last := by
  have H : ∀ n : Nat, ∀ cs : List FSEntry, sizeOf cs ≤ n →
      ∀ name pathStr pfx is_last,
        generate_tree name cs pathStr pfx is_last =
          generate_treeSpec name cs pathStr pfx is_last := by
    intro n
    induction n with
    | zero =>
      intro cs h
      exact absurd h (by have := sizeOf_list_pos cs; omega)
    | succ n ih =>
      intro cs hsz name pathStr pfx is_last
      rw [generate_tree, generate_treeSpec]
      simp only [levelDirs_eq_spec, levelFiles_eq_spec]
      have hfun : (fun p : Nat × {x // x ∈ cs} =>
          generate_tree p.2.val.name p.2.val.children
            (pathStr ++ "/" ++ p.2.val.name)
            (pfx ++ if is_last then "    " else "│   ")
            ((p.1 == (levelDirsSpec cs).length - 1) && (levelFilesSpec cs).isEmpty))
          = (fun p : Nat × {x // x ∈ cs} =>
          generate_treeSpec p.2.val.name p.2.val.children
            (pathStr ++ "/" ++ p.2.val.name)
            (pfx ++ if is_last then "    " else "│   ")
            ((p.1 == (levelDirsSpec cs).length - 1) && (levelFilesSpec cs).isEmpty)) := by
        funext p
        have h1 := List.sizeOf_lt_of_mem p.2.property
        have h2 := FSEntry.sizeOf_children_lt p.2.val
        exact ih p.2.val.children (by omega) _ _ _ _
      rw [hfun]
  exact H (sizeOf cs) cs (Nat.le_refl _) name pathStr pfx is_last

theorem string_foldl_append (l : List String) :
    ∀ a : String, l.foldl (fun r s => r ++ s) a = a ++ String.join l := by
  induction l with
  | nil => intro a; simp [String.join]
  | cons s l ih =>
    intro a
    have hj : String.join (s :: l) = l.foldl (fun r s => r ++ s) ("" ++ s) := rfl
    rw [hj, ih ("" ++ s), String.empty_append, List.foldl_cons, ih (a ++ s),
      String.append_assoc]

theorem string_join_cons (s : String) (l : List String) :
    String.join (s :: l) = s ++ String.join l := by
  have hj : String.join (s :: l) = l.foldl (fun r s => r ++ s) ("" ++ s) := rfl
  rw [hj, string_foldl_append, String.empty_append]

theorem create_content_markdown_aux (files : List FileInfo) :
    ∀ acc : String,
      files.foldl
        (fun content file =>
          content ++ ("## " ++ file.path ++ "\n") ++ "------------\n" ++
            (match file.content with
              | some c => c
              | none => "# Failed to read content") ++ "\n\n")
        acc = acc ++ String.join (files.map entryBlockSpec) := by
  induction files with
  | nil => intro acc; simp [String.join]
  | cons f fs ih =>
    intro acc
    rw [List.foldl_cons, List.map_cons, string_join_cons, ih]
    simp [entryBlockSpec, String.append_assoc]

theorem removeDotGit_eq_spec : ∀ l : List Char, removeDotGit l = removeAllGitSpec l := by
  intro l
  induction l using removeDotGit.induct with
  | case1 rest ih =>
    rw [show removeDotGit ('.' :: 'g' :: 'i' :: 't' :: rest) = removeDotGit rest from rfl,
      ih, removeAllGitSpec]
    simp [List.isPrefixOf]
  | case2 c rest hexcl ih =>
    rw [removeDotGit.eq_2 c rest hexcl, ih, removeAllGitSpec]
    have hpre : ¬(['.', 'g', 'i', 't'].isPrefixOf (c :: rest) = true) := by
      intro h
      obtain ⟨t, ht⟩ := List.isPrefixOf_iff_prefix.mp h
      simp only [List.cons_append, List.nil_append, List.cons.injEq] at ht
      exact hexcl t ht.1.symm ht.2.symm
    rw [if_neg hpre]
  | case3 =>
    rw [removeAllGitSpec]
    rfl

theorem string_join_append (l1 l2 : List String) :
    String.join (l1 ++ l2) = String.join l1 ++ String.join l2 := by
  induction l1 with
  | nil => rw [List.nil_append, show String.join [] = "" from rfl, String.empty_append]
  | cons s l ih =>
    rw [List.cons_append, string_join_cons, string_join_cons, ih, String.append_assoc]

theorem create_content_markdown_eq_join (files : List FileInfo) :
    create_content_markdown files = String.join (files.map entryBlockSpec) := by
  rw [create_content_markdown, create_content_markdown_aux files "", String.empty_append]

/-- One unfolding step of `generate_tree`, reassociated so the header line
stands apart from the level's rendered entries. -/
theorem generate_tree_unfold (name : String) (cs : List FSEntry) (pathStr pfx : String)
    (is_last : Bool) :
    generate_tree name cs pathStr pfx is_last =
      pfx ++ connector is_last ++ (if name = "" then pathStr else name) ++ "\n" ++
        (String.join ((levelDirs cs).enum.map fun p =>
            generate_tree p.2.val.name p.2.val.children (pathStr ++ "/" ++ p.2.val.name)
              (pfx ++ if is_last then "    " else "│   ")
              ((p.1 == (levelDirs cs).length - 1) && (levelFiles cs).isEmpty)) ++
          String.join ((levelFiles cs).enum.map fun p =>
            (pfx ++ if is_last then "    " else "│   ") ++
              connector (p.1 == (levelFiles cs).length - 1) ++ p.2.val.name ++ "\n")) := by
  rw [generate_tree, String.append_assoc]

/-- A concrete outcome environment (every effectful step succeeds and the
scan finds nothing) used to instantiate the claim theorems. -/
def envAllOk : RunEnv :=
  { mkdtempOk := true, cloneOk := true, localExists := true, localIsDir := true,
    scanOk := true, files := [], tree := "", now := "" }

/-- C1: on a remote target, whenever a run of `generate_markdowns` created a
temporary clone directory (`tempCreated`, i.e. `mkdtemp` ran on line 53),
that directory no longer exists when control returns to the caller — on the
success path and on every error path, a clone failure after the directory
was made included (the `finally` block of lines 75-78 always deletes it). -/
theorem c1_temp_dir_released (target_path : String) (env : RunEnv)
    (h : is_github target_path = true) :
    (generate_markdowns target_path env FS.clean).2.tempExists = false ∧
    (generate_markdowns target_path env FS.clean).2.tempCreated = env.mkdtempOk := by
  unfold generate_markdowns
  rw [h]
  cases hm : env.mkdtempOk with
  | false => simp [runFinally, release, FS.clean]
  | true =>
    cases hc : env.cloneOk with
    | false => simp [runFinally, release, rmtreeTemp]
    | true =>
      simp only [if_true]
      rcases hs : scanPhase target_path env true with e | out <;>
        simp [runFinally, release, rmtreeTemp, hs]

theorem c1_temp_dir_released_witness :
    is_github "https://github.com/u/r.git" = true ∧
    ((generate_markdowns "https://github.com/u/r.git"
        { envAllOk with cloneOk := false } FS.clean).2.tempExists = false ∧
      (generate_markdowns "https://github.com/u/r.git"
        { envAllOk with cloneOk := false } FS.clean).2.tempCreated =
        ({ envAllOk with cloneOk := false } : RunEnv).mkdtempOk) :=
  ⟨by decide,
    c1_temp_dir_released "https://github.com/u/r.git"
      { envAllOk with cloneOk := false } (by decide)⟩

/-- C2 as claimed is false on the code: with the source's default arguments
(`prefix=""`, `is_last=True`), line 19 renders the root with the terminal
connector in front of its display name.  At the concrete root directory
`proj` (no children) the whole output is the single line `└── proj`, which
differs from the bare line `proj` the claim asks for. -/
theorem c2_root_counterexample :
    generate_tree "proj" [] "proj" "" true = "└── proj\n" ∧
    generate_tree "proj" [] "proj" "" true ≠ "proj\n" := by
  constructor
  · rw [generate_tree]; decide
  · rw [generate_tree]; decide

/-- C2 amended: for every directory root, the first line of the rendered
tree is the root's display name with the terminal connector `└── ` in
front of it (not a bare name): the source's top-level call leaves the
defaults `prefix=""`, `is_last=True` in place, and line 19 emits the
connector for the root exactly as for any other entry. -/
theorem c2_root_line_amended (name : String) (cs : List FSEntry) (pathStr : String) :
    ∃ rest, generate_tree name cs pathStr "" true =
      "└── " ++ (if name = "" then pathStr else name) ++ "\n" ++ rest := by
  refine ⟨String.join ((levelDirs cs).enum.map fun p =>
      generate_tree p.2.val.name p.2.val.children (pathStr ++ "/" ++ p.2.val.name)
        ("" ++ if (true : Bool) = true then "    " else "│   ")
        ((p.1 == (levelDirs cs).length - 1) && (levelFiles cs).isEmpty)) ++
    String.join ((levelFiles cs).enum.map fun p =>
      ("" ++ if (true : Bool) = true then "    " else "│   ") ++
        connector (p.1 == (levelFiles cs).length - 1) ++ p.2.val.name ++ "\n"), ?_⟩
  rw [generate_tree_unfold]
  simp [connector, String.empty_append]

/-- C3's conjunct "acquisition verifies that the path ... is a directory"
is false on the code: line 58 checks only `work_dir.exists()`.  A local
target that exists but is a file passes acquisition; the run then fails
inside the tree scan with `NotADirectoryError` (out of `path.iterdir()`),
not with the acquisition `ValueError` of line 59. -/
theorem c3_counterexample :
    (generate_markdowns "somefile"
        { mkdtempOk := true, cloneOk := true, localExists := true,
          localIsDir := false, scanOk := true, files := [], tree := "", now := "" }
        FS.clean).1 = Except.error PipeError.notADir ∧
    PipeError.notADir ≠ PipeError.acquisition ("Directory not found: " ++ "somefile") := by
  constructor
  · decide
  · decide

/-- On the local branch (`is_github` false), a run returns the acquisition
error when the path is missing, otherwise the scan phase's result, and
leaves the filesystem state untouched (lines 56-78: `temp_dir` is never
assigned, so the `finally` block does nothing). -/
theorem generate_markdowns_local (target_path : String) (env : RunEnv) (fs : FS)
    (h : is_github target_path = false) :
    generate_markdowns target_path env fs =
      ((if env.localExists then scanPhase target_path env env.localIsDir
        else .error (.acquisition ("Directory not found: " ++ target_path))), fs) := by
  unfold generate_markdowns
  rw [h]
  cases hl : env.localExists <;> simp [runFinally, release, hl]

/-- On the remote branch (`is_github` true), a run returns the clone / scan
outcome; whenever `mkdtemp` ran, the temporary directory is gone from the
final state. -/
theorem generate_markdowns_github (target_path : String) (env : RunEnv) (fs : FS)
    (h : is_github target_path = true) :
    generate_markdowns target_path env fs =
      if env.mkdtempOk then
        ((if env.cloneOk then scanPhase target_path env true
          else .error .cloneFail),
          { fs with tempExists := false, tempCreated := true })
      else (.error .mkdtempFail, fs) := by
  unfold generate_markdowns
  rw [h]
  cases hm : env.mkdtempOk <;> cases hc : env.cloneOk <;>
    simp [runFinally, release, rmtreeTemp]

/-- The scan phase never reports an acquisition error: its outcomes are the
documents, `NotADirectoryError`, or a generic scan failure. -/
theorem scanPhase_ne_acquisition (target_path : String) (env : RunEnv)
    (work_is_dir : Bool) (m : String) :
    scanPhase target_path env work_is_dir ≠ .error (.acquisition m) := by
  unfold scanPhase
  cases work_is_dir <;> cases hs : env.scanOk <;> simp

/-- C3 amended: for a local target, acquisition verifies only that the
path exists: the run raises the acquisition error (the `ValueError` of
line 59) exactly when the path does not exist, and in that case no
documents are returned (the result carries the bare error); an existing
non-directory path passes acquisition and the run instead fails later,
inside the tree scan, with `NotADirectoryError`. -/
theorem c3_local_acquisition_amended (target_path : String) (env : RunEnv)
    (fs : FS) (h : is_github target_path = false) :
    ((generate_markdowns target_path env fs).1 =
        .error (.acquisition ("Directory not found: " ++ target_path)) ↔
      env.localExists = false) ∧
    (env.localExists = true → env.localIsDir = false →
      (generate_markdowns target_path env fs).1 = .error .notADir) := by
  rw [generate_markdowns_local target_path env fs h]
  cases hl : env.localExists with
  | false => simp
  | true =>
    constructor
    · simp only [if_true, Bool.true_eq_false, iff_false]
      exact scanPhase_ne_acquisition target_path env env.localIsDir _
    · intro _ hd
      simp [scanPhase, hd]

theorem c3_local_acquisition_amended_witness :
    is_github "nope" = false ∧
    (generate_markdowns "nope" { envAllOk with localExists := false } FS.clean).1 =
      .error (.acquisition ("Directory not found: " ++ "nope")) :=
  ⟨by decide,
    (c3_local_acquisition_amended "nope" { envAllOk with localExists := false }
      FS.clean (by decide)).1.mpr (by decide)⟩

/-- C4: at every directory level the Tree Renderer partitions the entries
into subdirectories and files, drops the entries whose name starts with
`.` and the directories named `__pycache__`, emits the lexicographically
sorted subdirectories (each fully expanded) before the lexicographically
sorted files of the level, and marks the level's last entry with `└── `
versus `├── ` for the earlier ones: the renderer coincides with
`generate_treeSpec`, the transcription of the spec's wording (whose level
lists drop before sorting, where the source sorts before dropping), and
both level lists are sorted by name. -/
theorem c4_level_processing (name : String) (cs : List FSEntry)
    (pathStr pfx : String) (is_last : Bool) :
    generate_tree name cs pathStr pfx is_last =
      generate_treeSpec name cs pathStr pfx is_last ∧
    levelDirs cs = levelDirsSpec cs ∧
    levelFiles cs = levelFilesSpec cs ∧
    List.Sorted (nameLe cs) (levelDirs cs) ∧
    List.Sorted (nameLe cs) (levelFiles cs) :=
  ⟨generate_tree_eq_spec name cs pathStr pfx is_last,
    levelDirs_eq_spec cs, levelFiles_eq_spec cs,
    List.Sorted.filter _ (List.sorted_insertionSort _ _),
    List.Sorted.filter _ (List.sorted_insertionSort _ _)⟩

/-- C5: the content-document builder is a function of the entry list alone
and produces exactly the concatenation, in input order, of one subsection
per entry — a heading with the relative path, the separator line, the
content or the absence marker, a blank-line spacer — skipping, truncating
and reordering nothing; it is moreover compositional under concatenation
of entry lists. -/
theorem c5_content_document (files : List FileInfo) :
    create_content_markdown files = String.join (files.map entryBlockSpec) ∧
    ∀ more : List FileInfo,
      create_content_markdown (files ++ more) =
        create_content_markdown files ++ create_content_markdown more := by
  refine ⟨create_content_markdown_eq_join files, fun more => ?_⟩
  rw [create_content_markdown_eq_join, create_content_markdown_eq_join,
    create_content_markdown_eq_join, List.map_append, string_join_append]

/-- C6: a run on a local (non-remote) target leaves the filesystem state
exactly as it found it, on every exit path — in particular the
caller-owned working directory is never deleted: the `finally` guard of
line 76 requires `is_github`, and `shutil.rmtree` is only ever pointed at
`self.temp_dir`, which stays `None` on the local branch. -/
theorem c6_local_frame (target_path : String) (env : RunEnv) (fs : FS)
    (h : is_github target_path = false) :
    (generate_markdowns target_path env fs).2 = fs ∧
    (generate_markdowns target_path env fs).2.localDeleted = fs.localDeleted := by
  rw [generate_markdowns_local target_path env fs h]
  exact ⟨rfl, rfl⟩

theorem c6_local_frame_witness :
    is_github "workdir" = false ∧
    ((generate_markdowns "workdir" envAllOk FS.clean).2 = FS.clean ∧
      (generate_markdowns "workdir" envAllOk FS.clean).2.localDeleted =
        FS.clean.localDeleted) :=
  ⟨by decide, c6_local_frame "workdir" envAllOk FS.clean (by decide)⟩

/-- C7: the release step (the guarded `finally` of lines 75-78) never
raises — `shutil.rmtree` is attempted only when the directory still
exists — and is idempotent: run again on the state it produced (the
temporary directory now gone) it is a no-op that returns the state
unchanged and still raises nothing, and on any state whose temporary
directory does not exist (acquisition having failed partway through
included) it is a no-op outright. -/
theorem c7_release_idempotent (isGit temp_dir_set : Bool) (fs : FS) :
    release isGit temp_dir_set fs = .ok (releaseFS isGit temp_dir_set fs) ∧
    release isGit temp_dir_set (releaseFS isGit temp_dir_set fs) =
      .ok (releaseFS isGit temp_dir_set fs) ∧
    (fs.tempExists = false → release isGit temp_dir_set fs = .ok fs) := by
  refine ⟨release_eq_ok isGit temp_dir_set fs, ?_, ?_⟩
  · rw [release_eq_ok]
    unfold releaseFS
    by_cases hg : (isGit && temp_dir_set && fs.tempExists) = true
    · simp [hg]
    · simp [hg]
  · intro h0
    unfold release
    simp [h0]

theorem c7_release_idempotent_witness :
    FS.clean.tempExists = false ∧ release true true FS.clean = .ok FS.clean :=
  ⟨by decide, (c7_release_idempotent true true FS.clean).2.2 (by decide)⟩

/-- C8: `main` demands exactly one positional argument (`len(sys.argv) ==
2`), returns 0 exactly when the pipeline and the two file writes all
succeed, and 1 in every other case — wrong argument count (usage line
printed), acquisition failure, or any other exception — printing the error
message to stdout. -/
theorem c8_cli_contract (argv : List String) (env : RunEnv) (writesOk : Bool)
    (ts : String) (fs : FS) :
    ((mainFn argv env writesOk ts fs).code = 0 ∨
      (mainFn argv env writesOk ts fs).code = 1) ∧
    (argv.length ≠ 2 →
      (mainFn argv env writesOk ts fs).code = 1 ∧
      "Usage: python main.py <github_url or directory_path>" ∈
        (mainFn argv env writesOk ts fs).printed) ∧
    (argv.length = 2 →
      ((mainFn argv env writesOk ts fs).code = 0 ↔
        exceptOk (generate_markdowns (argv.getD 1 "") env fs).1 = true ∧
          writesOk = true)) ∧
    (∀ e fs1, generate_markdowns (argv.getD 1 "") env fs = (.error e, fs1) →
      argv.length = 2 →
      (mainFn argv env writesOk ts fs).code = 1 ∧
      ("エラーが発生しました: " ++ e.msg) ∈
        (mainFn argv env writesOk ts fs).printed) := by
  unfold mainFn
  by_cases hlen : argv.length = 2
  · simp only [hlen, bne_self_eq_false, Bool.false_eq_true, if_false]
    rcases hg : generate_markdowns (argv.getD 1 "") env fs with ⟨res, fs1⟩
    clear hg
    cases res with
    | ok out =>
      cases writesOk with
      | true =>
        refine ⟨Or.inl rfl, by simp, fun _ => ?_, fun e fs2 heq _ => ?_⟩
        · simp [exceptOk]
        · exact absurd (congrArg Prod.fst heq) (by simp)
      | false =>
        refine ⟨Or.inr rfl, by simp, fun _ => ?_, fun e fs2 heq _ => ?_⟩
        · simp
        · exact absurd (congrArg Prod.fst heq) (by simp)
    | error e =>
      refine ⟨Or.inr rfl, by simp, fun _ => ?_, fun e2 fs2 heq _ => ?_⟩
      · simp [exceptOk]
      · have he : e = e2 := Except.error.inj (congrArg Prod.fst heq)
        subst he
        exact ⟨rfl, by simp⟩
  · have hne : (argv.length != 2) = true := by
      simp [hlen]
    simp only [hne, if_true]
    refine ⟨?_, fun _ => ⟨?_, ?_⟩, fun h2 => absurd h2 hlen,
      fun e fs1 _ h2 => absurd h2 hlen⟩
    · simp
    · simp
    · simp

theorem c8_cli_contract_witness :
    ((mainFn ["main.py"] envAllOk true "t" FS.clean).code = 1 ∧
      "Usage: python main.py <github_url or directory_path>" ∈
        (mainFn ["main.py"] envAllOk true "t" FS.clean).printed) ∧
    ((mainFn ["main.py", "missing"] { envAllOk with localExists := false } true
        "t" FS.clean).code = 1 ∧
      ("エラーが発生しました: " ++
          (PipeError.acquisition ("Directory not found: " ++ "missing")).msg) ∈
        (mainFn ["main.py", "missing"] { envAllOk with localExists := false } true
          "t" FS.clean).printed) :=
  ⟨(c8_cli_contract ["main.py"] envAllOk true "t" FS.clean).2.1 (by decide),
    (c8_cli_contract ["main.py", "missing"] { envAllOk with localExists := false }
      true "t" FS.clean).2.2.2
      (.acquisition ("Directory not found: " ++ "missing")) FS.clean
      (by decide) (by decide)⟩

/-- C9: for a remote target, `_get_name` takes the last '/'-separated
segment of the URL and removes every occurrence of the substring `.git`
from it (`removeAllGitSpec` is the left-to-right removal scan) — not only
a trailing suffix: on `https://github.com/u/my.gitx.git`, whose basename
carries `.git` internally, the result is `myx`, while stripping only the
trailing suffix would leave `my.gitx`. -/
theorem c9_get_name_strips_every_dot_git :
    (∀ url : String, is_github url = true →
      get_name url =
        String.mk (removeAllGitSpec ((splitOnSlash url.toList).getLastD []))) ∧
    get_name "https://github.com/u/my.gitx.git" = "myx" ∧
    stripTrailingGit "my.gitx.git" = "my.gitx" ∧
    ("myx" : String) ≠ "my.gitx" := by
  refine ⟨?_, by decide, by decide, by decide⟩
  intro url h
  unfold get_name
  rw [if_pos h, removeDotGit_eq_spec]

theorem c9_get_name_witness :
    is_github "https://github.com/a/b.git" = true ∧
    get_name "https://github.com/a/b.git" =
      String.mk (removeAllGitSpec
        ((splitOnSlash "https://github.com/a/b.git".toList).getLastD [])) :=
  ⟨by decide,
    c9_get_name_strips_every_dot_git.1 "https://github.com/a/b.git" (by decide)⟩

/-- C10: when the root's display name is empty (`path.name` of a
filesystem root like `/` is `''`), line 19's `path.name or str(path)`
falls back to the full string form of the path, so the first line shows
that nonempty string after its connector and prefix rather than ending
blank. -/
theorem c10_empty_root_name_fallback (cs : List FSEntry) (pathStr pfx : String)
    (is_last : Bool) (h : pathStr ≠ "") :
    (∃ rest, generate_tree "" cs pathStr pfx is_last =
        pfx ++ connector is_last ++ pathStr ++ "\n" ++ rest) ∧
    pathStr ≠ "" := by
  constructor
  · refine ⟨String.join ((levelDirs cs).enum.map fun p =>
        generate_tree p.2.val.name p.2.val.children (pathStr ++ "/" ++ p.2.val.name)
          (pfx ++ if is_last then "    " else "│   ")
          ((p.1 == (levelDirs cs).length - 1) && (levelFiles cs).isEmpty)) ++
      String.join ((levelFiles cs).enum.map fun p =>
        (pfx ++ if is_last then "    " else "│   ") ++
          connector (p.1 == (levelFiles cs).length - 1) ++ p.2.val.name ++ "\n"), ?_⟩
    rw [generate_tree_unfold]
    simp
  · exact h

theorem c10_empty_root_name_fallback_witness :
    ("/" : String) ≠ "" ∧
    ((∃ rest, generate_tree "" [] "/" "" true =
        "" ++ connector true ++ "/" ++ "\n" ++ rest) ∧ ("/" : String) ≠ "") :=
  ⟨by decide, c10_empty_root_name_fallback [] "/" "" true (by decide)⟩
